import Mathlib

/-!
Verification development for the Friend-Circle-Lite aggregation pipeline
(`friend_circle_lite/get_info.py`).

The Python source is shallowly embedded as pure Lean functions.  Network
effects are made explicit: every outbound request is modelled by an oracle
function from the requested URL to an optional response, where `none`
models a raised transport exception (`requests.RequestException` or any
other `Exception` caught at the call site).  Python dicts are modelled as
insertion-ordered association lists, matching CPython's dict semantics
(overwrite keeps position, new keys append).  Free-text timestamp
normalisation (`format_published_time`, a wrapper around the external
`dateutil` parser) is treated as an uninterpreted parameter, per the
design boundary: only its output string matters to the core algorithms.

Python library primitives used by the source (`str.lower`, `str.rstrip`,
`urllib.parse.urlparse`, `re.match` on a fixed pattern,
`datetime.strptime` with the fixed format `%Y-%m-%d %H:%M`) are modelled
concretely below, restricted where noted to the shapes the source feeds
them.
-/

namespace FriendCircleLite

/-! ### Character-list string utilities

All string manipulation is done over `List Char` with structural
recursion so that every definition evaluates by kernel reduction. -/

/-- Model of Python `str.lower` (ASCII letters; the source only compares
against ASCII markers such as `"xml"` and `"<rss"`). -/
def lowerStr (s : String) : String :=
  String.mk (s.data.map Char.toLower)

/-- Decide whether `pat` occurs as a contiguous sublist of `s`
(Python `pat in s`). -/
def subList (pat : List Char) : List Char → Bool
  | [] => pat.isEmpty
  | c :: rest => pat.isPrefixOf (c :: rest) || subList pat rest

/-- Model of the Python substring test `pat in s`. -/
def containsSub (pat s : String) : Bool :=
  subList pat.data s.data

/-- Model of Python `s.rstrip (Char.ofNat 47)`, i.e. `rstrip` with the
slash character: drop every trailing slash. -/
def rstripSlash (s : String) : String :=
  String.mk ((s.data.reverse.dropWhile (fun c => c = '/')).reverse)

/-- Model of Python `lstrip` with the slash character. -/
def lstripSlash (s : String) : String :=
  String.mk (s.data.dropWhile (fun c => c = '/'))

/-- Model of the Python slice `s[:n]` (by code points). -/
def takeStr (n : Nat) (s : String) : String :=
  String.mk (s.data.take n)

/-- Split a character list at the first occurrence of `c`; `none` when
`c` does not occur.  Matches Python `s.split(c, 1)`. -/
def splitAtFirst (c : Char) : List Char → Option (List Char × List Char)
  | [] => none
  | x :: xs =>
    if x = c then some ([], xs)
    else (splitAtFirst c xs).map (fun p => (x :: p.1, p.2))

/-- Split a character list on every occurrence of `c`
(Python `s.split(c)`): structural recursion, so it evaluates by kernel
reduction. -/
def splitOnChar (c : Char) : List Char → List (List Char)
  | [] => [[]]
  | x :: xs =>
    if x = c then [] :: splitOnChar c xs
    else
      match splitOnChar c xs with
      | [] => [[x]]
      | g :: gs => (x :: g) :: gs

/-! ### Model of `datetime.strptime` with format `%Y-%m-%d %H:%M`

The source always feeds this either the empty string, an arbitrary
string produced by `format_published_time`, or the fixed default
`"2024-01-01 00:00"`.  Output of `strftime` with that format is always
the fixed-width zero-padded form modelled here; `none` models a raised
`ValueError`.  The resulting `Nat` encodes the timestamp so that the
encoding is strictly monotone in the lexicographic order of
`(year, month, day, hour, minute)`, hence comparisons of encoded values
agree with comparisons of the corresponding `datetime` objects. -/

/-- Numeric value of a decimal digit character. -/
def digitVal (c : Char) : Nat := c.toNat - 48

/-- Number of days in a month, with leap-year handling, matching the
validation performed by `datetime`. -/
def daysInMonth (y mo : Nat) : Nat :=
  if mo = 2 then
    if y % 4 = 0 && (y % 100 ≠ 0 || y % 400 = 0) then 29 else 28
  else if mo = 4 || mo = 6 || mo = 9 || mo = 11 then 30
  else 31

/-- Model of `datetime.strptime(s, fmtYmdHM)` for the fixed-width
zero-padded form `YYYY-MM-DD HH:MM`: `none` models `ValueError`. -/
def strptimeYmdHM (s : String) : Option Nat :=
  match s.data with
  | [y1, y2, y3, y4, '-', m1, m2, '-', d1, d2, ' ', h1, h2, ':', n1, n2] =>
    if [y1, y2, y3, y4, m1, m2, d1, d2, h1, h2, n1, n2].all Char.isDigit then
      let y := ((digitVal y1 * 10 + digitVal y2) * 10 + digitVal y3) * 10 + digitVal y4
      let mo := digitVal m1 * 10 + digitVal m2
      let d := digitVal d1 * 10 + digitVal d2
      let h := digitVal h1 * 10 + digitVal h2
      let mi := digitVal n1 * 10 + digitVal n2
      if 1 ≤ mo && mo ≤ 12 && 1 ≤ d && d ≤ daysInMonth y mo && h ≤ 23 && mi ≤ 59 then
        some ((((y * 13 + mo) * 32 + d) * 24 + h) * 60 + mi)
      else none
    else none
  | _ => none

/-! ### Model of `urllib.parse.urlparse` and `urljoin`

`urlparse` is modelled for general absolute and relative URLs: optional
fragment after the first `#`, optional scheme before the first `:` when
the prefix is a valid scheme token, network location between `//` and
the next delimiter, then path and query.  `urljoin` is modelled for the
single shape the source uses it with — a base that ends in `/` and a
relative reference without leading slash, scheme, or dot segments —
where it concatenates. -/

structure UrlParts where
  (scheme : String)
  (netloc : String)
  (path : String)
  (query : String)
  (fragment : String)
deriving DecidableEq

/-- Valid characters of a URL scheme after the initial letter. -/
def isSchemeChar (c : Char) : Bool :=
  c.isAlphanum || c = '+' || c = '-' || c = '.'

/-- Model of `urllib.parse.urlparse`. -/
def urlparse (link : String) : UrlParts :=
  let cs := link.data
  let frag := splitAtFirst '#' cs
  let beforeFrag := match frag with | some p => p.1 | none => cs
  let fragment := match frag with | some p => p.2 | none => []
  let schemeSplit := splitAtFirst ':' beforeFrag
  let hasScheme := match schemeSplit with
    | some p =>
      (match p.1 with
       | [] => false
       | c0 :: rest => c0.isAlpha && rest.all isSchemeChar)
    | none => false
  let scheme := if hasScheme then
      (match schemeSplit with | some p => p.1.map Char.toLower | none => [])
    else []
  let afterScheme := if hasScheme then
      (match schemeSplit with | some p => p.2 | none => beforeFrag)
    else beforeFrag
  let hasNetloc := match afterScheme with
    | '/' :: '/' :: _ => true
    | _ => false
  let netloc := if hasNetloc then
      (afterScheme.drop 2).takeWhile (fun c => c ≠ '/' && c ≠ '?')
    else []
  let rest := if hasNetloc then
      (afterScheme.drop 2).dropWhile (fun c => c ≠ '/' && c ≠ '?')
    else afterScheme
  let querySplit := splitAtFirst '?' rest
  let path := match querySplit with | some p => p.1 | none => rest
  let query := match querySplit with | some p => p.2 | none => []
  ⟨String.mk scheme, String.mk netloc, String.mk path, String.mk query, String.mk fragment⟩

/-- Model of `urllib.parse.urljoin` for the single call shape of the
source: the base ends in `/` and the relative reference carries no
leading slash, no scheme and no dot segments, so the join concatenates.
An empty relative reference yields the base, as in Python. -/
def urljoinSlash (base rel : String) : String :=
  if rel = "" then base else base ++ rel

/-- Decide the Python regex `r'^\d{1,3}(\.\d{1,3}){3}$'` on a netloc:
exactly four dot-separated groups of one to three digits. -/
def isDottedQuad (s : String) : Bool :=
  let groups := splitOnChar '.' s.data
  groups.length = 4 &&
    groups.all (fun g => 1 ≤ g.length && g.length ≤ 3 && g.all Char.isDigit)

/-! ### `replace_non_domain` (source lines 188–215)

Link sanitization: when the parsed netloc contains `localhost` or is a
bare dotted-quad, the path plus query is re-joined under `blog_url`;
otherwise (including the unreachable exception fallback, since the
parse model is total) the link is returned unchanged.  Note the source
does not touch the scheme: the rewritten link inherits whatever scheme
`blog_url` carries. -/

def replace_non_domain (link : String) (blog_url : String) : String :=
  let parsed := urlparse link
  if containsSub "localhost" parsed.netloc || isDottedQuad parsed.netloc then
    let path0 := if parsed.path = "" then "/" else parsed.path
    let path1 := if parsed.query ≠ "" then path0 ++ "?" ++ parsed.query else path0
    urljoinSlash (rstripSlash blog_url ++ "/") (lstripSlash path1)
  else link

/-! ### `check_feed` (source lines 79–118)

Feed discovery.  A probe oracle maps each requested URL to `none`
(modelling a raised `requests.RequestException`, swallowed by the
`except ... continue`) or to a response carrying the HTTP status code,
the `Content-Type` header value, and the body text.  The embedding is
instrumented: alongside the `[feed_type, feed_url]` result it returns
the list of URLs actually passed to `session.get`, in order, so that
"candidates after the first match are not probed" is a statement about
the function itself. -/

structure ProbeResponse where
  (status : Nat)
  (contentType : String)
  (text : String)
deriving DecidableEq

/-- Oracle for discovery probes: `none` models a transport exception. -/
def ProbeOracle : Type := String → Option ProbeResponse

/-- Decision made by the loop body of `check_feed` for one candidate:
HTTP 200 and either an xml/rss/atom token in the lower-cased
`Content-Type` or an `<rss` / `<feed` / `<rdf:rdf` marker in the
lower-cased first 1000 characters of the body. -/
def feedProbeOk (probe : ProbeOracle) (feed_url : String) : Bool :=
  match probe feed_url with
  | none => false
  | some r =>
    if r.status = 200 then
      let ct := lowerStr r.contentType
      if containsSub "xml" ct || containsSub "rss" ct || containsSub "atom" ct then
        true
      else
        let head := lowerStr (takeStr 1000 r.text)
        containsSub "<rss" head || containsSub "<feed" head || containsSub "<rdf:rdf" head
    else false

/-- Fixed ordered candidate list of `check_feed`. -/
def possible_feeds : List (String × String) :=
  [("atom", "/atom.xml"), ("rss", "/rss.xml"), ("rss2", "/rss2.xml"),
   ("rss3", "/rss.php"), ("feed", "/feed"), ("feed2", "/feed.xml"),
   ("feed3", "/feed/"), ("feed4", "/feed.php"), ("index", "/index.xml")]

/-- Candidate URL for a probe path. -/
def candidateUrl (blog_url path : String) : String :=
  rstripSlash blog_url ++ path

/-- Loop of `check_feed` over a candidate list.  First component: the
returned `[feed_type, feed_url]` pair; second: the URLs probed. -/
def check_feed_aux (probe : ProbeOracle) (blog_url : String) :
    List (String × String) → ((String × String) × List String)
  | [] => (("none", blog_url), [])
  | c :: rest =>
    let feed_url := candidateUrl blog_url c.2
    if feedProbeOk probe feed_url then ((c.1, feed_url), [feed_url])
    else
      let r := check_feed_aux probe blog_url rest
      (r.1, feed_url :: r.2)

/-- Model of `check_feed`, instrumented with the probed-URL list. -/
def check_feed (probe : ProbeOracle) (blog_url : String) :
    (String × String) × List String :=
  check_feed_aux probe blog_url possible_feeds

/-! ### `parse_feed` (source lines 121–186)

The fetch plus `feedparser.parse` step is modelled by an oracle from the
feed URL to an optional feed document; `none` models a transport
exception raised by `session.get` (caught by the enclosing `except`,
which returns the empty result).  `feedparser` itself never raises: on
arbitrary bytes it returns a document, possibly with no entries, so the
document shape below (optional fields mirroring feedparser's key
presence) is total.  `format_published_time` (source lines 40–77) wraps
the external `dateutil` free-text parser and is passed in uninterpreted
as `fmt`.

Two further exception paths of the source are modelled explicitly:

* an entry with neither a `published` key nor a `title` key raises
  `AttributeError` inside the `logging.warning` call that interpolates
  `entry.title` (source lines 155 and 158), aborting the whole parse;
* the sort key `datetime.strptime(x.published, fmtYmdHM)` raises
  `ValueError` whenever some article's `published` value does not parse
  — in particular for the explicit empty value `s = StrEmpty` — again
  aborting the whole parse and yielding the empty result. -/

structure FeedEntry where
  (title : Option String)
  (published : Option String)
  (updated : Option String)
  (link : Option String)
  (summary : Option String)
  (content : Option (List String))
  (description : Option String)
deriving DecidableEq

structure FeedDoc where
  (title : Option String)
  (author : Option String)
  (link : Option String)
  (entries : List FeedEntry)
deriving DecidableEq

/-- Oracle for the fetch plus `feedparser.parse` step of `parse_feed`:
`none` models a transport exception. -/
def FeedOracle : Type := String → Option FeedDoc

/-- Article dict built by the entry loop of `parse_feed`. -/
structure PArticle where
  (title : String)
  (author : String)
  (link : String)
  (published : String)
  (summary : String)
  (content : String)
deriving DecidableEq

/-- Return value of `parse_feed`. -/
structure ParsedFeed where
  (website_name : String)
  (author : String)
  (link : String)
  (articles : List PArticle)
deriving DecidableEq

/-- Empty result returned by the `except` branch of `parse_feed`. -/
def emptyParsedFeed : ParsedFeed := ⟨"", "", "", []⟩

/-- Sort key used by `parse_feed` and `sort_articles_by_time`:
the `strptime` encoding, defaulting (irrelevantly: the sort only runs
when every key parses) to `0`. -/
def pubKey (published : String) : Nat :=
  (strptimeYmdHM published).getD 0

/-- Descending order on articles by normalized publication timestamp,
as produced by Python `sorted(key, reverse := True)`. -/
def pubGe (a b : PArticle) : Prop :=
  pubKey b.published ≤ pubKey a.published

instance : DecidableRel pubGe := fun a b => Nat.decLe _ _

instance : IsTotal PArticle pubGe := ⟨fun a b => Nat.le_total (pubKey b.published) (pubKey a.published)⟩

instance : IsTrans PArticle pubGe := ⟨fun _ _ _ h1 h2 => Nat.le_trans h2 h1⟩

/-- Entry-to-article mapping of the loop body (source lines 148–171). -/
def entryArticle (fmt : String → String) (blog_url : String) (author : String)
    (e : FeedEntry) : PArticle :=
  let published := match e.published with
    | some p => fmt p
    | none =>
      match e.updated with
      | some u => fmt u
      | none => ""
  let article_link := match e.link with
    | some l => replace_non_domain l blog_url
    | none => ""
  let content := match e.content with
    | some (v :: _) => v
    | _ => e.description.getD ""
  ⟨e.title.getD "", author, article_link, published, e.summary.getD "", content⟩

/-- Truncation of source lines 175–176: keep the first `count` articles
only when there are more than `count` of them. -/
def truncateTo {α : Type} (count : Nat) (l : List α) : List α :=
  if count < l.length then l.take count else l

/-- Body of `parse_feed` on a successfully fetched document.  The
entry-title check models the `AttributeError` raised while logging an
entry that lacks both time keys; the all-parse check models the
`ValueError` raised by the sort key — either lands in the `except`
branch, which returns the empty result. -/
def parse_feed_doc (fmt : String → String) (blog_url : String) (count : Nat)
    (feed : FeedDoc) : ParsedFeed :=
  if feed.entries.any (fun e => e.published.isNone && e.title.isNone) then
    emptyParsedFeed
  else if (feed.entries.map (entryArticle fmt blog_url (feed.author.getD ""))).all
      (fun a => (strptimeYmdHM a.published).isSome) then
    ⟨feed.title.getD "", feed.author.getD "", feed.link.getD "",
      truncateTo count
        (List.insertionSort pubGe
          (feed.entries.map (entryArticle fmt blog_url (feed.author.getD ""))))⟩
  else emptyParsedFeed

/-- Model of `parse_feed`.  A transport failure during the fetch also
lands in the `except` branch. -/
def parse_feed (fmt : String → String) (fetch : FeedOracle)
    (url : String) (count : Nat) (blog_url : String) : ParsedFeed :=
  match fetch url with
  | none => emptyParsedFeed
  | some feed => parse_feed_doc fmt blog_url count feed

/-! ### `process_friend` (source lines 217–355)

Per-friend state machine.  The friend triple is modelled as a record
(the `except` branch for a malformed triple, source lines 247–259, is
outside the well-typed model).  The embedding is instrumented with a
count of `check_feed` invocations, so that "no re-discovery happens"
is a statement about the function.

A consequence the source itself fixes: `parse_feed` catches every
exception and always returns a dict carrying an `articles` key, so the
`else` branch (line 301) and the `except` branch (lines 302–304) that
set `parse_error = True` can never run.  The embedding keeps
`parse_error` and the guarded repair branch (lines 306–337) as literal
translations; the guard is the constant the source makes it. -/

structure Friend where
  (name : String)
  (blog_url : String)
  (avatar : String)
deriving DecidableEq

/-- Entry of the merged specific-plus-cache source table: a dict with
`name` and `url` keys and an optional `source` key. -/
structure SCEntry where
  (name : String)
  (url : String)
  (source : Option String)
deriving DecidableEq

/-- Cache-update intent staged by `process_friend`. -/
structure CacheUpdate where
  (action : String)
  (name : String)
  (url : Option String)
  (reason : String)
deriving DecidableEq

/-- Article dict in the shape `process_friend` returns. -/
structure ArticleOut where
  (title : String)
  (created : String)
  (link : String)
  (author : String)
  (avatar : String)
deriving DecidableEq

/-- Result of `process_friend`, instrumented with the number of
`check_feed` calls made (`discoveries`). -/
structure PFResult where
  (name : String)
  (status : String)
  (articles : List ArticleOut)
  (feed_url : Option String)
  (feed_type : String)
  (cache_update : CacheUpdate)
  (source_used : String)
  (discoveries : Nat)
deriving DecidableEq

/-- Model of the dict comprehension
`rss_lookup = {e.name : e for e in specific_and_cache}`
followed by `rss_lookup.get(name)`: the last entry with the given name
wins, `none` when there is none. -/
def lookupLast (name : String) (l : List SCEntry) : Option SCEntry :=
  l.foldl (fun acc e => if e.name = name then some e else acc) none

/-- Python truthiness of the optional `feed_url` string. -/
def truthyUrl : Option String → Bool
  | none => false
  | some u => u ≠ ""

/-- Mapping from parsed articles to the friend-level article shape
(source lines 287–296): author forced to the friend's name, avatar
attached. -/
def toFriendArticles (name avatar : String) (arts : List PArticle) : List ArticleOut :=
  arts.map (fun a => ⟨a.title, a.published, a.link, name, avatar⟩)

/-- Steps 3–5 of `process_friend` (parse attempt, repair branch, final
status), shared by both source-selection outcomes. -/
def process_friend_rest (probe : ProbeOracle) (fetch : FeedOracle)
    (fmt : String → String) (name blog_url avatar : String) (count : Nat)
    (feed_url : Option String) (feed_type source_used : String)
    (cache_update : CacheUpdate) (discoveries : Nat) : PFResult :=
  let articles :=
    if feed_type ≠ "none" && truthyUrl feed_url then
      toFriendArticles name avatar
        (parse_feed fmt fetch (feed_url.getD "") count blog_url).articles
    else []
  let parse_error := false
  if parse_error && (source_used = "cache" || source_used = "unknown") then
    let probed := check_feed probe blog_url
    let discoveries := discoveries + 1
    let new_type := probed.1.1
    let new_url := probed.1.2
    if new_type ≠ "none" && new_url ≠ "" then
      let articles := toFriendArticles name avatar
        (parse_feed fmt fetch new_url count blog_url).articles
      let status := if articles.isEmpty then "error" else "active"
      ⟨name, status, articles, some new_url, new_type,
        ⟨"set", name, some new_url, "repair_cache"⟩, "auto", discoveries⟩
    else
      let status := if articles.isEmpty then "error" else "active"
      ⟨name, status, articles, none, "none",
        ⟨"delete", name, none, "remove_invalid"⟩, source_used, discoveries⟩
  else
    let status := if articles.isEmpty then "error" else "active"
    ⟨name, status, articles, feed_url, feed_type, cache_update, source_used, discoveries⟩

/-- Model of `process_friend`. -/
def process_friend (probe : ProbeOracle) (fetch : FeedOracle)
    (fmt : String → String) (friend : Friend) (count : Nat)
    (specific_and_cache : List SCEntry) : PFResult :=
  let name := friend.name
  let blog_url := friend.blog_url
  let avatar := friend.avatar
  match lookupLast name specific_and_cache with
  | some entry =>
    process_friend_rest probe fetch fmt name blog_url avatar count
      (some entry.url) "specific" (entry.source.getD "unknown")
      ⟨"none", name, none, ""⟩ 0
  | none =>
    let probed := check_feed probe blog_url
    let feed_type := probed.1.1
    let feed_url := probed.1.2
    let cache_update : CacheUpdate :=
      if feed_type ≠ "none" && feed_url ≠ "" then
        ⟨"set", name, some feed_url, "auto_discovered"⟩
      else ⟨"none", name, none, ""⟩
    process_friend_rest probe fetch fmt name blog_url avatar count
      (some feed_url) feed_type "auto" cache_update 1

/-! ### Insertion-ordered dict model

CPython dicts preserve insertion order; assignment to an existing key
overwrites in place, a new key appends, `pop` removes.  Keys are
strings throughout the source. -/

/-- Dict assignment `d[k] = v`. -/
def dictInsert {α : Type} : List (String × α) → String → α → List (String × α)
  | [], k, v => [(k, v)]
  | p :: rest, k, v =>
    if p.1 = k then (k, v) :: rest else p :: dictInsert rest k v

/-- Dict read `d.get(k)`. -/
def dictFind {α : Type} : List (String × α) → String → Option α
  | [], _ => none
  | p :: rest, k => if p.1 = k then some p.2 else dictFind rest k

/-- Dict removal `d.pop(k)` (guarded by membership in the source). -/
def dictPop {α : Type} (d : List (String × α)) (k : String) : List (String × α) :=
  d.filter (fun p => p.1 ≠ k)

/-! ### Cache reconciliation (source lines 483–517)

`fetch_and_process_data` rebuilds `cache_map` from the cache list read
at start of run, deduplicates the staged updates by name — dropping
updates with a falsy name, updates for manual names, and `set` updates
without a usable URL — and then applies the survivors.  The persisted
snapshot is `list(cache_map.values())` with the `source` tag dropped,
i.e. the (name, url) pairs in dict order. -/

/-- Deduplicated update value: action, url, reason. -/
structure UpdVal where
  (action : String)
  (url : Option String)
  (reason : String)
deriving DecidableEq

/-- Dict `cache_map = {e.name : e for e in cache_list}` restricted to
the persisted fields: name to url. -/
def buildCacheMap (cache_list : List (String × String)) : List (String × String) :=
  cache_list.foldl (fun d p => dictInsert d p.1 p.2) []

/-- Deduplication and filtering of staged updates
(source lines 486–504). -/
def dedupeUpdates (manualNames : List String) (cache_updates : List CacheUpdate) :
    List (String × UpdVal) :=
  cache_updates.foldl (fun d upd =>
    if upd.name = "" then d
    else if upd.name ∈ manualNames then d
    else if upd.action = "set" then
      match upd.url with
      | some u =>
        if u ≠ "" && u ≠ "none" then dictInsert d upd.name ⟨"set", some u, upd.reason⟩
        else d
      | none => d
    else if upd.action = "delete" then dictInsert d upd.name ⟨"delete", none, upd.reason⟩
    else d) []

/-- Application of the surviving updates (source lines 506–514). -/
def applyUpdates (cache_map : List (String × String))
    (upds : List (String × UpdVal)) : List (String × String) :=
  upds.foldl (fun cm u =>
    if u.2.action = "set" then dictInsert cm u.1 (u.2.url.getD "")
    else if u.2.action = "delete" then dictPop cm u.1
    else cm) cache_map

/-- Cache reconciliation: the snapshot persisted by `_save_cache`. -/
def reconcileCache (cache_list : List (String × String)) (manualNames : List String)
    (cache_updates : List CacheUpdate) : List (String × String) :=
  applyUpdates (buildCacheMap cache_list) (dedupeUpdates manualNames cache_updates)

/-! ### `fetch_and_process_data` (source lines 401–536)

File I/O and the wall clock are outside the model: the cache list
stands for the result of `_load_cache`, and the returned record carries
the snapshot `_save_cache` would persist.  The friend-list fetch is an
`Option`: `none` models the `except` branch of lines 437–442, which
returns `None` before any processing or cache write.  The thread pool
is modelled at its fan-in boundary: one outcome per friend, where
`Except.error` models an exception escaping `future.result()` (caught
at lines 478–481 and converted to a per-friend error).  Bookkeeping is
a fold over the friend list; every counter the claims mention is
order-independent, so completion order is irrelevant. -/

/-- Manual-override input entry (from the YAML config): a dict with
name and url. -/
structure ManualItem where
  (name : String)
  (url : String)
deriving DecidableEq

/-- Manual source entries built at source lines 421–424. -/
def manualList (specific_RSS : List ManualItem) : List SCEntry :=
  specific_RSS.map (fun m => ⟨m.name, m.url, some "manual"⟩)

/-- Cache source entries as normalised by `_load_cache`
(source lines 370–378). -/
def cacheEntries (cache_list : List (String × String)) : List SCEntry :=
  cache_list.map (fun p => ⟨p.1, p.2, some "cache"⟩)

/-- Merged source table (source lines 426–430): cache first, manual
overwrites on name collision; the task input is the dict values. -/
def specificAndCache (cache_list : List (String × String))
    (specific_RSS : List ManualItem) : List SCEntry :=
  ((cacheEntries cache_list ++ manualList specific_RSS).foldl
    (fun d e => dictInsert d e.name e) []).map (fun p => p.2)

/-- Manual name set (source line 433). -/
def manualNameSet (specific_RSS : List ManualItem) : List String :=
  (manualList specific_RSS).map (fun e => e.name)

/-- Accumulator of the fan-in loop (source lines 444–481). -/
structure AggAcc where
  (active_friends : Nat)
  (error_friends : Nat)
  (total_articles : Nat)
  (article_data : List ArticleOut)
  (error_friends_info : List Friend)
  (cache_updates : List CacheUpdate)
deriving DecidableEq

/-- Loop body for one completed future. -/
def aggStep (acc : AggAcc) (friend : Friend) : Except Unit PFResult → AggAcc
  | Except.ok r =>
    let upds := if r.cache_update.action ≠ "none" then
        acc.cache_updates ++ [r.cache_update]
      else acc.cache_updates
    if r.status = "active" then
      ⟨acc.active_friends + 1, acc.error_friends,
        acc.total_articles + r.articles.length,
        acc.article_data ++ r.articles, acc.error_friends_info, upds⟩
    else
      ⟨acc.active_friends, acc.error_friends + 1, acc.total_articles,
        acc.article_data, acc.error_friends_info ++ [friend], upds⟩
  | Except.error _ =>
    ⟨acc.active_friends, acc.error_friends + 1, acc.total_articles,
      acc.article_data, acc.error_friends_info ++ [friend], acc.cache_updates⟩

/-- Fan-in over all friends. -/
def aggregate (task : List SCEntry → Friend → Except Unit PFResult)
    (sc : List SCEntry) (friends : List Friend) : AggAcc :=
  friends.foldl (fun acc friend => aggStep acc friend (task sc friend)) ⟨0, 0, 0, [], [], []⟩

/-- Return value of `fetch_and_process_data` on the success path,
including the cache snapshot handed to `_save_cache`. -/
structure FAPDOut where
  (friends_num : Nat)
  (active_num : Nat)
  (error_num : Nat)
  (article_num : Nat)
  (article_data : List ArticleOut)
  (error_friends_info : List Friend)
  (saved_cache : List (String × String))
deriving DecidableEq

/-- Model of `fetch_and_process_data`.  `friends_fetch = none` models a
raised exception while fetching or decoding the friend-list document;
`task` stands for `executor.submit(process_friend, friend, session,
count, specific_and_cache)` followed by `future.result()`, with
`Except.error` an exception escaping the task. -/
def fetch_and_process_data (cache_list : List (String × String))
    (specific_RSS : List ManualItem) (friends_fetch : Option (List Friend))
    (task : List SCEntry → Friend → Except Unit PFResult) : Option FAPDOut :=
  let sc := specificAndCache cache_list specific_RSS
  let manualNames := manualNameSet specific_RSS
  match friends_fetch with
  | none => none
  | some friends =>
    let acc := aggregate task sc friends
    let saved := reconcileCache cache_list manualNames acc.cache_updates
    some ⟨friends.length, acc.active_friends, acc.error_friends,
      acc.total_articles, acc.article_data, acc.error_friends_info, saved⟩

/-! ### `sort_articles_by_time` (source lines 538–562) and
`deal_with_large_data` (source lines 619–651)

`sort_articles_by_time` first replaces an empty (or missing) `created`
with the fixed default `"2024-01-01 00:00"`, then sorts descending with
the `strptime` key.  The key raises `ValueError` on any remaining
unparsable value; neither function catches it, so `none` models that
propagated exception. -/

/-- Fixed default timestamp substituted at the sort stage. -/
def defaultCreated : String := "2024-01-01 00:00"

/-- Descending order on output articles by `created`. -/
def createdGe (a b : ArticleOut) : Prop :=
  pubKey b.created ≤ pubKey a.created

instance : DecidableRel createdGe := fun a b => Nat.decLe _ _

instance : IsTotal ArticleOut createdGe := ⟨fun a b => Nat.le_total (pubKey b.created) (pubKey a.created)⟩

instance : IsTrans ArticleOut createdGe := ⟨fun _ _ _ h1 h2 => Nat.le_trans h2 h1⟩

/-- Model of `sort_articles_by_time` on the article list. -/
def sort_articles_by_time (arts : List ArticleOut) : Option (List ArticleOut) :=
  let fixed := arts.map (fun a =>
    if a.created = "" then ⟨a.title, defaultCreated, a.link, a.author, a.avatar⟩ else a)
  if fixed.all (fun a => (strptimeYmdHM a.created).isSome) then
    some (List.insertionSort createdGe fixed)
  else none

/-- Result dict of the retention stage: the statistics field the
function touches plus the article list. -/
structure BigData where
  (article_num : Nat)
  (article_data : List ArticleOut)
deriving DecidableEq

/-- Fixed retention bound of `deal_with_large_data`. -/
def maxArticles : Nat := 150

/-- Model of `deal_with_large_data`. -/
def deal_with_large_data (d : BigData) : Option BigData :=
  match sort_articles_by_time d.article_data with
  | none => none
  | some sortedArts =>
    if maxArticles < sortedArts.length then
      let top := sortedArts.take maxArticles
      let topAuthors := top.map (fun a => a.author)
      let filtered := top ++ (sortedArts.drop maxArticles).filter
        (fun a => a.author ∈ topAuthors)
      some ⟨filtered.length, filtered⟩
    else some ⟨d.article_num, sortedArts⟩

/-! ## Supporting lemmas -/

/-- Membership after a dict assignment: either an old pair or the new
key. -/
theorem mem_dictInsert {α : Type} (k : String) (v : α) :
    ∀ (d : List (String × α)) (p : String × α),
      p ∈ dictInsert d k v → p ∈ d ∨ p.1 = k := by
  intro d
  induction d with
  | nil =>
    intro p hp
    simp only [dictInsert, List.mem_singleton] at hp
    right
    rw [hp]
  | cons q rest ih =>
    intro p hp
    simp only [dictInsert] at hp
    by_cases hq : q.1 = k
    · rw [if_pos hq] at hp
      cases List.mem_cons.mp hp with
      | inl h => right; rw [h]
      | inr h => left; exact List.mem_cons_of_mem q h
    · rw [if_neg hq] at hp
      cases List.mem_cons.mp hp with
      | inl h => left; rw [h]; exact List.mem_cons_self q rest
      | inr h =>
        cases ih p h with
        | inl h2 => left; exact List.mem_cons_of_mem q h2
        | inr h2 => right; exact h2

/-- Dict assignment under a distinct key does not change a lookup. -/
theorem dictFind_dictInsert_ne {α : Type} (k : String) (v : α) (n : String)
    (hk : k ≠ n) :
    ∀ d : List (String × α), dictFind (dictInsert d k v) n = dictFind d n := by
  intro d
  induction d with
  | nil => simp [dictInsert, dictFind, hk]
  | cons q rest ih =>
    by_cases hq : q.1 = k
    · simp only [dictInsert, if_pos hq, dictFind, hk, if_neg hk]
      rw [← hq] at hk
      simp [if_neg hk]
    · simp only [dictInsert, if_neg hq, dictFind]
      by_cases hn : q.1 = n
      · simp [if_pos hn]
      · simp [if_neg hn, ih]

/-- Dict removal of a distinct key does not change a lookup. -/
theorem dictFind_dictPop_ne {α : Type} (k n : String) (hk : k ≠ n) :
    ∀ d : List (String × α), dictFind (dictPop d k) n = dictFind d n := by
  intro d
  induction d with
  | nil => rfl
  | cons q rest ih =>
    by_cases hq : q.1 = k
    · have hn : q.1 ≠ n := by rw [hq]; exact hk
      have hdrop : dictPop (q :: rest) k = dictPop rest k := by
        simp [dictPop, List.filter_cons, hq]
      rw [hdrop, ih]
      simp [dictFind, hn]
    · have hkeep : dictPop (q :: rest) k = q :: dictPop rest k := by
        simp [dictPop, List.filter_cons, hq]
      rw [hkeep]
      by_cases hn : q.1 = n
      · simp [dictFind, hn]
      · simp [dictFind, hn, ih]

/-- Every name surviving update deduplication avoids the manual name
set: the two `continue` guards of source lines 492–497. -/
theorem dedupeUpdates_keys_not_manual (manualNames : List String) :
    ∀ (upds : List CacheUpdate) (d : List (String × UpdVal)),
      (∀ p ∈ d, p.1 ∉ manualNames) →
      ∀ p ∈ upds.foldl (fun d upd =>
        if upd.name = "" then d
        else if upd.name ∈ manualNames then d
        else if upd.action = "set" then
          match upd.url with
          | some u =>
            if u ≠ "" && u ≠ "none" then dictInsert d upd.name ⟨"set", some u, upd.reason⟩
            else d
          | none => d
        else if upd.action = "delete" then dictInsert d upd.name ⟨"delete", none, upd.reason⟩
        else d) d, p.1 ∉ manualNames := by
  intro upds
  induction upds with
  | nil => intro d hd p hp; exact hd p hp
  | cons upd rest ih =>
    intro d hd p hp
    simp only [List.foldl_cons] at hp
    refine ih _ ?_ p hp
    intro q hq
    by_cases h1 : upd.name = ""
    · rw [if_pos h1] at hq; exact hd q hq
    · rw [if_neg h1] at hq
      by_cases h2 : upd.name ∈ manualNames
      · rw [if_pos h2] at hq; exact hd q hq
      · rw [if_neg h2] at hq
        have hkey : ∀ v : UpdVal, q ∈ dictInsert d upd.name v → q.1 ∉ manualNames := by
          intro v hv
          cases mem_dictInsert upd.name v d q hv with
          | inl h5 => exact hd q h5
          | inr h5 => rw [h5]; exact h2
        by_cases h3 : upd.action = "set"
        · rw [if_pos h3] at hq
          cases hu : upd.url with
          | none => rw [hu] at hq; exact hd q hq
          | some u =>
            rw [hu] at hq
            have hq2 : q ∈ (if (decide (u ≠ "") && decide (u ≠ "none")) = true then
                dictInsert d upd.name ⟨"set", some u, upd.reason⟩ else d) := hq
            by_cases h4 : (decide (u ≠ "") && decide (u ≠ "none")) = true
            · rw [if_pos h4] at hq2
              exact hkey _ hq2
            · rw [if_neg h4] at hq2
              exact hd q hq2
        · rw [if_neg h3] at hq
          by_cases h5 : upd.action = "delete"
          · rw [if_pos h5] at hq
            exact hkey _ hq
          · rw [if_neg h5] at hq; exact hd q hq

/-- Applying updates none of which touch `name` leaves the lookup of
`name` unchanged. -/
theorem applyUpdates_find_untouched (n : String) :
    ∀ (upds : List (String × UpdVal)) (cm : List (String × String)),
      (∀ p ∈ upds, p.1 ≠ n) →
      dictFind (applyUpdates cm upds) n = dictFind cm n := by
  intro upds
  induction upds with
  | nil => intro cm _; rfl
  | cons u rest ih =>
    intro cm hu
    have hun : u.1 ≠ n := hu u (List.mem_cons_self u rest)
    have hrest : ∀ p ∈ rest, p.1 ≠ n := fun p hp => hu p (List.mem_cons_of_mem u hp)
    simp only [applyUpdates, List.foldl_cons]
    rw [show (rest.foldl (fun cm u =>
        if u.2.action = "set" then dictInsert cm u.1 (u.2.url.getD "")
        else if u.2.action = "delete" then dictPop cm u.1
        else cm) _) = applyUpdates _ rest from rfl]
    rw [ih _ hrest]
    by_cases h1 : u.2.action = "set"
    · rw [if_pos h1]
      exact dictFind_dictInsert_ne u.1 _ n hun cm
    · rw [if_neg h1]
      by_cases h2 : u.2.action = "delete"
      · rw [if_pos h2]
        exact dictFind_dictPop_ne u.1 n hun cm
      · rw [if_neg h2]

/-- One fan-in step keeps the derived statistics consistent and counts
the friend exactly once, whether the task returned or raised. -/
theorem aggStep_invariant (acc : AggAcc) (friend : Friend) (r : Except Unit PFResult)
    (h1 : acc.total_articles = acc.article_data.length)
    (h2 : acc.error_friends_info.length = acc.error_friends) :
    (aggStep acc friend r).total_articles = (aggStep acc friend r).article_data.length ∧
    (aggStep acc friend r).error_friends_info.length = (aggStep acc friend r).error_friends ∧
    (aggStep acc friend r).active_friends + (aggStep acc friend r).error_friends =
      acc.active_friends + acc.error_friends + 1 := by
  cases r with
  | error e =>
    refine ⟨h1, ?_, ?_⟩
    · simp [aggStep, h2]
    · simp only [aggStep]
      omega
  | ok pr =>
    by_cases hs : pr.status = "active"
    · refine ⟨?_, ?_, ?_⟩
      · simp [aggStep, hs, h1]
      · simp [aggStep, hs, h2]
      · simp only [aggStep, hs, if_pos, ite_true, ite_false]
        omega
    · refine ⟨?_, ?_, ?_⟩
      · simp [aggStep, hs, h1]
      · simp [aggStep, hs, h2]
      · simp [aggStep, hs]
        omega

/-- Fan-in loop invariant: statistics stay derived from the data and
every processed friend adds one to exactly one of the two counters. -/
theorem aggFold_invariant (task : List SCEntry → Friend → Except Unit PFResult)
    (sc : List SCEntry) :
    ∀ (friends : List Friend) (acc : AggAcc),
      acc.total_articles = acc.article_data.length →
      acc.error_friends_info.length = acc.error_friends →
      (friends.foldl (fun a f => aggStep a f (task sc f)) acc).total_articles =
        (friends.foldl (fun a f => aggStep a f (task sc f)) acc).article_data.length ∧
      (friends.foldl (fun a f => aggStep a f (task sc f)) acc).error_friends_info.length =
        (friends.foldl (fun a f => aggStep a f (task sc f)) acc).error_friends ∧
      (friends.foldl (fun a f => aggStep a f (task sc f)) acc).active_friends +
          (friends.foldl (fun a f => aggStep a f (task sc f)) acc).error_friends =
        acc.active_friends + acc.error_friends + friends.length := by
  intro friends
  induction friends with
  | nil => intro acc h1 h2; exact ⟨h1, h2, rfl⟩
  | cons f rest ih =>
    intro acc h1 h2
    have hstep := aggStep_invariant acc f (task sc f) h1 h2
    have hrec := ih (aggStep acc f (task sc f)) hstep.1 hstep.2.1
    simp only [List.foldl_cons]
    refine ⟨hrec.1, hrec.2.1, ?_⟩
    have ha := hrec.2.2
    have hb := hstep.2.2
    simp only [List.length_cons]
    omega

/-! ## Claim theorems -/

/-- Claim C10: for every friend list and every assignment of per-friend
outcomes (including tasks that raise), the statistics returned by
`fetch_and_process_data` satisfy `friends_num = active_num + error_num`,
`friends_num` is the number of input friends, `article_num` is the
length of the returned `article_data`, and the error-friends list has
length `error_num` — each friend is counted exactly once. -/
theorem fetch_and_process_data_statistics (cache_list : List (String × String))
    (specific_RSS : List ManualItem) (friends : List Friend)
    (task : List SCEntry → Friend → Except Unit PFResult) :
    ∃ out, fetch_and_process_data cache_list specific_RSS (some friends) task = some out ∧
      out.friends_num = friends.length ∧
      out.active_num + out.error_num = out.friends_num ∧
      out.article_num = out.article_data.length ∧
      out.error_friends_info.length = out.error_num := by
  have h := aggFold_invariant task (specificAndCache cache_list specific_RSS) friends
    ⟨0, 0, 0, [], [], []⟩ rfl rfl
  refine ⟨_, rfl, rfl, ?_, ?_, ?_⟩
  · have hc := h.2.2
    simp only [aggregate] at *
    omega
  · exact h.1
  · exact h.2.1

/-- Claim C9: failure to retrieve the friend-list document aborts the
run: `fetch_and_process_data` returns `none` instead of a result pair,
and no cache snapshot is produced (the early return precedes the
`_save_cache` call, so the record carrying the persisted snapshot does
not exist). -/
theorem fetch_and_process_data_aborts_on_fetch_failure
    (cache_list : List (String × String)) (specific_RSS : List ManualItem)
    (task : List SCEntry → Friend → Except Unit PFResult) :
    fetch_and_process_data cache_list specific_RSS none task = none := rfl

/-- Claim C2, counterexample: with an original cache already holding an
entry named `A` and a manual override also named `A`, a run over an
empty friend list persists a cache that still contains `A`, although
`A` is in the manual name set — so the reconciled cache is not free of
manual names for every original cache. -/
theorem fetch_and_process_data_persists_manual_named_entry :
    fetch_and_process_data [("A", "u")] [⟨"A", "m"⟩] (some []) (fun _ _ => Except.error ()) =
      some ⟨0, 0, 0, 0, [], [], [("A", "u")]⟩ ∧
    "A" ∈ manualNameSet [⟨"A", "m"⟩] :=
  ⟨by decide, by decide⟩

/-- Claim C2, amended: for every original cache, manual name set and
staged updates, reconciliation never applies an update for a manual
name — the reconciled (and persisted) cache agrees with the original
cache map on every manual name.  In particular a manual name can occur
in the persisted cache only if the original cache already contained
it. -/
theorem reconcileCache_manual_names_untouched (cache_list : List (String × String))
    (manualNames : List String) (upds : List CacheUpdate) (name : String)
    (h : name ∈ manualNames) :
    dictFind (reconcileCache cache_list manualNames upds) name =
      dictFind (buildCacheMap cache_list) name := by
  have hkeys : ∀ p ∈ dedupeUpdates manualNames upds, p.1 ∉ manualNames :=
    dedupeUpdates_keys_not_manual manualNames upds [] (fun p hp => absurd hp (List.not_mem_nil p))
  exact applyUpdates_find_untouched name (dedupeUpdates manualNames upds)
    (buildCacheMap cache_list)
    (fun p hp => fun heq => hkeys p hp (heq ▸ h))

/-- Claim C2 amended, witness: a `delete` staged for the manual name
`A` leaves the cached entry for `A` untouched. -/
theorem reconcileCache_manual_names_untouched_witness :
    "A" ∈ ["A"] ∧
    dictFind (reconcileCache [("A", "u")] ["A"] [⟨"delete", "A", none, "remove_invalid"⟩]) "A" =
      dictFind (buildCacheMap [("A", "u")]) "A" :=
  ⟨by decide,
   reconcileCache_manual_names_untouched [("A", "u")] ["A"]
     [⟨"delete", "A", none, "remove_invalid"⟩] "A" (by decide)⟩

/-- Characterization of the discovery loop over any candidate list:
the result is determined by the first matching candidate (`find?`),
and the probed URLs are exactly the non-matching strict predecessors
(`takeWhile`) followed by the first match when there is one. -/
theorem check_feed_aux_eq (probe : ProbeOracle) (blog_url : String) :
    ∀ cands : List (String × String),
      check_feed_aux probe blog_url cands =
        ((match cands.find? (fun c => feedProbeOk probe (candidateUrl blog_url c.2)) with
          | some c => (c.1, candidateUrl blog_url c.2)
          | none => ("none", blog_url)),
         (cands.takeWhile (fun d => ! feedProbeOk probe (candidateUrl blog_url d.2))).map
            (fun d => candidateUrl blog_url d.2) ++
          (cands.find? (fun c => feedProbeOk probe (candidateUrl blog_url c.2))).toList.map
            (fun c => candidateUrl blog_url c.2)) := by
  intro cands
  induction cands with
  | nil => rfl
  | cons c rest ih =>
    by_cases h : feedProbeOk probe (candidateUrl blog_url c.2) = true
    · simp [check_feed_aux, h, List.find?_cons_of_pos _ h, List.takeWhile_cons]
    · have hf : feedProbeOk probe (candidateUrl blog_url c.2) = false :=
        Bool.eq_false_iff.mpr h
      simp [check_feed_aux, hf, List.find?_cons_of_neg _ h, List.takeWhile_cons, ih]

/-- Claim C5: for every probe-response assignment, discovery returns
the first candidate, in the fixed probe order, whose response matches
(HTTP 200 and an xml/rss/atom content-type token or a feed marker in
the body head); the probed URLs are exactly the failing predecessors
plus that first match, so no candidate after the first match is probed;
transport failures fail the probe predicate and are skipped; and when
no candidate matches the sentinel pair of `"none"` and the site URL is
returned (with every candidate probed). -/
theorem check_feed_first_match_wins (probe : ProbeOracle) (blog_url : String) :
    check_feed probe blog_url =
      ((match possible_feeds.find? (fun c => feedProbeOk probe (candidateUrl blog_url c.2)) with
        | some c => (c.1, candidateUrl blog_url c.2)
        | none => ("none", blog_url)),
       (possible_feeds.takeWhile (fun d => ! feedProbeOk probe (candidateUrl blog_url d.2))).map
          (fun d => candidateUrl blog_url d.2) ++
        (possible_feeds.find? (fun c => feedProbeOk probe (candidateUrl blog_url c.2))).toList.map
          (fun c => candidateUrl blog_url c.2)) :=
  check_feed_aux_eq probe blog_url possible_feeds

/-- Truncation preserves pairwise ordering. -/
theorem truncateTo_pairwise {α : Type} {R : α → α → Prop} (count : Nat)
    {l : List α} (h : l.Pairwise R) : (truncateTo count l).Pairwise R := by
  unfold truncateTo
  split
  · exact h.take
  · exact h

/-- Truncation bounds the length by `count`. -/
theorem truncateTo_length_le {α : Type} (count : Nat) (l : List α) :
    (truncateTo count l).length ≤ count := by
  unfold truncateTo
  split
  · rw [List.length_take]
    omega
  · omega

/-- On a fetched document the parser output is sorted and truncated. -/
theorem parse_feed_doc_sorted_and_truncated (fmt : String → String)
    (blog_url : String) (count : Nat) (feed : FeedDoc) :
    (parse_feed_doc fmt blog_url count feed).articles.Pairwise pubGe ∧
    (parse_feed_doc fmt blog_url count feed).articles.length ≤ count := by
  unfold parse_feed_doc
  by_cases hbad : (feed.entries.any fun e => e.published.isNone && e.title.isNone) = true
  · rw [if_pos hbad]
    exact ⟨List.Pairwise.nil, Nat.zero_le count⟩
  · rw [if_neg hbad]
    by_cases hall : ((feed.entries.map (entryArticle fmt blog_url (feed.author.getD ""))).all
        fun a => (strptimeYmdHM a.published).isSome) = true
    · rw [if_pos hall]
      exact ⟨truncateTo_pairwise count (List.sorted_insertionSort pubGe _),
        truncateTo_length_le count _⟩
    · rw [if_neg hall]
      exact ⟨List.Pairwise.nil, Nat.zero_le count⟩

/-- Claim C6: for every feed document, every timestamp normaliser and
every `max_count`, the article sequence returned by `parse_feed` is
sorted non-increasing by the normalized-timestamp key and has length at
most `max_count`. -/
theorem parse_feed_sorted_and_truncated (fmt : String → String) (fetch : FeedOracle)
    (url : String) (count : Nat) (blog_url : String) :
    (parse_feed fmt fetch url count blog_url).articles.Pairwise pubGe ∧
    (parse_feed fmt fetch url count blog_url).articles.length ≤ count := by
  cases hfe : fetch url with
  | none =>
    have heq : parse_feed fmt fetch url count blog_url = emptyParsedFeed := by
      unfold parse_feed
      rw [hfe]
    rw [heq]
    exact ⟨List.Pairwise.nil, Nat.zero_le count⟩
  | some feed =>
    have heq : parse_feed fmt fetch url count blog_url = parse_feed_doc fmt blog_url count feed := by
      unfold parse_feed
      rw [hfe]
    rw [heq]
    exact parse_feed_doc_sorted_and_truncated fmt blog_url count feed

/-- Claim C7: for every friend whose source-table entry has manual
origin, if parsing the manual feed URL yields zero articles then
`process_friend` performs no discovery at all (in particular no
repair re-discovery), returns error status, and stages no cache
mutation: the staged update keeps action `none`. -/
theorem process_friend_manual_feed_failure (probe : ProbeOracle) (fetch : FeedOracle)
    (fmt : String → String) (friend : Friend) (count : Nat) (sc : List SCEntry)
    (e : SCEntry) (hl : lookupLast friend.name sc = some e)
    (hm : e.source = some "manual")
    (hp : (parse_feed fmt fetch e.url count friend.blog_url).articles = []) :
    (process_friend probe fetch fmt friend count sc).status = "error" ∧
    (process_friend probe fetch fmt friend count sc).cache_update =
      ⟨"none", friend.name, none, ""⟩ ∧
    (process_friend probe fetch fmt friend count sc).discoveries = 0 := by
  have heq : process_friend probe fetch fmt friend count sc =
      process_friend_rest probe fetch fmt friend.name friend.blog_url friend.avatar count
        (some e.url) "specific" (e.source.getD "unknown") ⟨"none", friend.name, none, ""⟩ 0 := by
    unfold process_friend
    simp only [hl]
  rw [heq]
  unfold process_friend_rest
  have harts : (if ("specific" ≠ "none" && truthyUrl (some e.url)) = true then
      toFriendArticles friend.name friend.avatar
        (parse_feed fmt fetch ((some e.url).getD "") count friend.blog_url).articles
    else ([] : List ArticleOut)) = [] := by
    split
    · show toFriendArticles _ _ _ = []
      rw [show ((some e.url).getD "") = e.url from rfl, hp]
      rfl
    · rfl
  rw [harts]
  exact ⟨rfl, rfl, rfl⟩

/-- Claim C7, witness: a manual entry whose feed fetch raises (hence
parses to zero articles) yields error status, a `none` cache action
and zero discovery probes. -/
theorem process_friend_manual_feed_failure_witness :
    lookupLast "C" [⟨"C", "http://c.example/feed.xml", some "manual"⟩] =
      some ⟨"C", "http://c.example/feed.xml", some "manual"⟩ ∧
    (parse_feed (fun s => s) (fun _ => none) "http://c.example/feed.xml" 5
      "http://c.example").articles = [] ∧
    ((process_friend (fun _ => none) (fun _ => none) (fun s => s)
        ⟨"C", "http://c.example", "av"⟩ 5
        [⟨"C", "http://c.example/feed.xml", some "manual"⟩]).status = "error" ∧
      (process_friend (fun _ => none) (fun _ => none) (fun s => s)
        ⟨"C", "http://c.example", "av"⟩ 5
        [⟨"C", "http://c.example/feed.xml", some "manual"⟩]).cache_update =
        ⟨"none", "C", none, ""⟩ ∧
      (process_friend (fun _ => none) (fun _ => none) (fun s => s)
        ⟨"C", "http://c.example", "av"⟩ 5
        [⟨"C", "http://c.example/feed.xml", some "manual"⟩]).discoveries = 0) :=
  ⟨by decide, by decide,
   process_friend_manual_feed_failure (fun _ => none) (fun _ => none) (fun s => s)
     ⟨"C", "http://c.example", "av"⟩ 5 [⟨"C", "http://c.example/feed.xml", some "manual"⟩]
     ⟨"C", "http://c.example/feed.xml", some "manual"⟩ (by decide) rfl (by decide)⟩

/-- Claim C8: when the re-sort of `deal_with_large_data` succeeds with
list `s` (empty `created` values replaced by the fixed default before
sorting), the retention step keeps everything if `s` has at most 150
articles, and otherwise keeps exactly the first 150 plus, in order,
the later articles whose author occurs among the authors of the first
150; in particular nothing in the first 150 — no author's first
appearance there — is dropped. -/
theorem deal_with_large_data_retention (d : BigData) (s : List ArticleOut)
    (h : sort_articles_by_time d.article_data = some s) :
    ∃ out, deal_with_large_data d = some out ∧
      (s.length ≤ maxArticles → out.article_data = s) ∧
      (maxArticles < s.length →
        out.article_data =
          s.take maxArticles ++
            (s.drop maxArticles).filter
              (fun a => a.author ∈ (s.take maxArticles).map (fun x => x.author))) ∧
      ∀ a ∈ s.take maxArticles, a ∈ out.article_data := by
  have heq : deal_with_large_data d =
      (if maxArticles < s.length then
        some ⟨(s.take maxArticles ++ (s.drop maxArticles).filter
            (fun a => a.author ∈ (s.take maxArticles).map (fun x => x.author))).length,
          s.take maxArticles ++ (s.drop maxArticles).filter
            (fun a => a.author ∈ (s.take maxArticles).map (fun x => x.author))⟩
      else some ⟨d.article_num, s⟩) := by
    unfold deal_with_large_data
    rw [h]
  rw [heq]
  by_cases hlt : maxArticles < s.length
  · rw [if_pos hlt]
    refine ⟨_, rfl, ?_, ?_, ?_⟩
    · intro hle
      omega
    · intro _
      rfl
    · intro a ha
      exact List.mem_append_left _ ha
  · rw [if_neg hlt]
    refine ⟨_, rfl, ?_, ?_, ?_⟩
    · intro _
      rfl
    · intro hgt
      omega
    · intro a ha
      exact List.take_subset maxArticles s ha

/-- Claim C8, witness: a single article with an empty `created` value
is kept, with the default timestamp substituted by the sort stage. -/
theorem deal_with_large_data_retention_witness :
    sort_articles_by_time [⟨"t", "", "l", "a", "av"⟩] =
      some [⟨"t", defaultCreated, "l", "a", "av"⟩] ∧
    (∃ out, deal_with_large_data ⟨1, [⟨"t", "", "l", "a", "av"⟩]⟩ = some out ∧
      (([⟨"t", defaultCreated, "l", "a", "av"⟩] : List ArticleOut).length ≤ maxArticles →
        out.article_data = [⟨"t", defaultCreated, "l", "a", "av"⟩]) ∧
      (maxArticles < ([⟨"t", defaultCreated, "l", "a", "av"⟩] : List ArticleOut).length →
        out.article_data =
          ([⟨"t", defaultCreated, "l", "a", "av"⟩] : List ArticleOut).take maxArticles ++
            (([⟨"t", defaultCreated, "l", "a", "av"⟩] : List ArticleOut).drop maxArticles).filter
              (fun a => a.author ∈ (([⟨"t", defaultCreated, "l", "a", "av"⟩] : List ArticleOut).take
                maxArticles).map (fun x => x.author))) ∧
      ∀ a ∈ ([⟨"t", defaultCreated, "l", "a", "av"⟩] : List ArticleOut).take maxArticles,
        a ∈ out.article_data) :=
  ⟨by decide,
   deal_with_large_data_retention ⟨1, [⟨"t", "", "l", "a", "av"⟩]⟩
     [⟨"t", defaultCreated, "l", "a", "av"⟩] (by decide)⟩

/-- Claim C1, code evaluation at the failing input: friend `B` has a
cached source-table entry whose feed URL no longer parses (the fetch
fails, so `parse_feed` yields zero articles) and re-discovery would
find nothing (every probe fails) — yet `process_friend` returns the
full record with error status, an unchanged `none` cache action
instead of the claimed `delete`/`remove_invalid`, and zero discovery
calls: the repair branch never runs because `parse_feed` converts
every failure into a zero-article dict and the `parse_error` flag is
only set on a raised exception or a non-dict return, which cannot
happen. -/
theorem process_friend_cached_dead_feed_stages_nothing :
    process_friend (fun _ => none) (fun _ => none) (fun s => s)
      ⟨"B", "http://b.example", "av"⟩ 5
      [⟨"B", "http://b.example/feed.xml", some "cache"⟩] =
      ⟨"B", "error", [], some "http://b.example/feed.xml", "specific",
        ⟨"none", "B", none, ""⟩, "cache", 0⟩ := by decide

/-- Claim C3, code evaluation at the failing input: a fetched feed with
one entry that has a title but neither a `published` nor an `updated`
key.  The entry loop does assign the explicit empty `published` value,
but the sort key `strptime` then raises on that empty string, so
`parse_feed` returns the empty result — the entry never reaches the
output with an empty `published`. -/
theorem parse_feed_empty_published_collapses_feed :
    parse_feed (fun s => s)
      (fun _ => some ⟨some "Site", some "au", some "http://b.example",
        [⟨some "post", none, none, none, none, none, none⟩]⟩)
      "http://b.example/feed.xml" 5 "http://b.example" = emptyParsedFeed := by decide

/-- Claim C4, code evaluation at the failing input: a `localhost` link
is rewritten under the trusted site URL, but the scheme is inherited
from the trusted URL (`http` here), not forced to `https` as the
claim and the function docstring state. -/
theorem replace_non_domain_keeps_base_scheme :
    replace_non_domain "http://localhost/post?x=1" "http://example.com" =
      "http://example.com/post?x=1" := by decide

end FriendCircleLite
